import Mathlib

/-!
Verification of the chess rules engine of this repository
(`models/chess_board.py` and `models/chess_piece.py`, the final variants of
the duplicated board/piece files).

The Python classes are embedded shallowly: the mutable `ChessBoard` object
becomes a `Board` structure, every mutating method becomes a function from
`Board` to `Board` (returning the method's result paired with the updated
state where the method returns a value), and the in-place
"mutate, test, restore" code of `would_move_cause_check` is transcribed
step by step so that its restoration behaviour can be examined.

Coordinates are integers, as in Python; all grid reads and writes in the
embedded code paths are bounds-guarded exactly where the Python code guards
them (`0 <= r < BOARD_SIZE`).  The grid itself is a total function on
`Fin 8 × Fin 8`, matching the 8×8 list-of-lists.
-/

set_option maxRecDepth 4000

namespace Chessmancer

/-- Colors of pieces, `'white'` / `'black'` in the source. -/
inductive Color where
  | white
  | black
deriving DecidableEq, Repr

/-- `'black' if color == 'white' else 'white'`. -/
def Color.other : Color → Color
  | .white => .black
  | .black => .white

/-- Piece type strings `PAWN, KNIGHT, BISHOP, ROOK, QUEEN, KING` from `constants.py`. -/
inductive PieceType where
  | pawn
  | knight
  | bishop
  | rook
  | queen
  | king
deriving DecidableEq, Repr

/-- `ChessPiece.__init__` of `models/chess_piece.py`: type, color, (row, col)
position and the `has_moved` flag (initially `False`). -/
structure ChessPiece where
  pieceType : PieceType
  color : Color
  position : Int × Int
  hasMoved : Bool := false
deriving DecidableEq, Repr

/-- `BOARD_SIZE = 8` from `constants.py`. -/
def BOARD_SIZE : Int := 8

/-- `MODE_HUMAN_VS_HUMAN = 0` from `constants.py`. -/
def MODE_HUMAN_VS_HUMAN : Nat := 0

/-- `MODE_HUMAN_VS_AI = 1` from `constants.py`. -/
def MODE_HUMAN_VS_AI : Nat := 1

/-- The 8×8 grid `self.board`, a total map from in-range squares to optional
pieces. -/
def Grid : Type := Fin 8 → Fin 8 → Option ChessPiece

instance : DecidableEq Grid := fun g h =>
  Fintype.decidablePiFintype g h

/-- The game-relevant state of a `ChessBoard` object.  Rendering-only fields
(animation lists, AI timers, screen surfaces) are omitted; the guard flags
`thinking`/`animating`/`pending_ai_move` that gate the embedded methods are
kept.  `ai` records whether `self.ai` is non-`None`. -/
structure Board where
  grid : Grid
  selected_piece : Option ChessPiece := none
  legal_moves : List (Int × Int) := []
  turn : Color := .white
  game_mode : Nat := MODE_HUMAN_VS_HUMAN
  ai : Bool := false
  move_history : List ((Int × Int) × (Int × Int)) := []
  game_over : Bool := false
  game_result : String := ""
  thinking : Bool := false
  pending_ai_move : Bool := false
  animating : Bool := false
  last_pawn_double_move : Option (Int × Int) := none
deriving DecidableEq

/-- Bounds test `0 <= r < BOARD_SIZE and 0 <= c < BOARD_SIZE`. -/
def inBounds (r c : Int) : Prop := 0 ≤ r ∧ r < 8 ∧ 0 ≤ c ∧ c < 8

instance (r c : Int) : Decidable (inBounds r c) := by
  unfold inBounds; infer_instance

/-- Bounds-guarded read `self.board[r][c]` (every modelled Python read is
guarded by an explicit range check in the source). -/
def Board.cell (b : Board) (r c : Int) : Option ChessPiece :=
  if h : inBounds r c then
    b.grid ⟨r.toNat, by unfold inBounds at h; omega⟩
           ⟨c.toNat, by unfold inBounds at h; omega⟩
  else none

/-- Bounds-guarded write `self.board[r][c] = v`.  Only the grid is touched;
out-of-range writes (which no modelled code path performs) leave the grid
unchanged. -/
def Board.setCell (b : Board) (r c : Int) (v : Option ChessPiece) : Board :=
  { b with grid := fun i j =>
      if inBounds r c ∧ i.val = r.toNat ∧ j.val = c.toNat then v
      else b.grid i j }

/-- Python `range(a, b)` over integers (ascending, empty when `b ≤ a`). -/
def intRange (a b : Int) : List Int :=
  (List.range (b - a).toNat).map (fun k => a + (k : Int))

/-- The loop counter `range(1, BOARD_SIZE)` used by every sliding-piece and
attack ray. -/
def raySteps : List Int := [1, 2, 3, 4, 5, 6, 7]

/-- The 8 knight offsets of `get_legal_moves`. -/
def knightOffsets : List (Int × Int) :=
  [(-2, -1), (-2, 1), (-1, -2), (-1, 2), (1, -2), (1, 2), (2, -1), (2, 1)]

/-- The 8 king offsets of `get_legal_moves`. -/
def kingOffsets : List (Int × Int) :=
  [(-1, -1), (-1, 0), (-1, 1), (0, -1), (0, 1), (1, -1), (1, 0), (1, 1)]

/-- The diagonal ray directions. -/
def diagDirs : List (Int × Int) := [(-1, -1), (-1, 1), (1, -1), (1, 1)]

/-- The orthogonal ray directions. -/
def orthoDirs : List (Int × Int) := [(-1, 0), (1, 0), (0, -1), (0, 1)]

/-- The fixed-offset destination loop shared by the knight and the plain king
moves of `ChessPiece.get_legal_moves`: for each offset, the destination is
kept when it is on the board and empty or enemy-occupied. -/
def offsetMoves (b : Board) (p : ChessPiece) (offs : List (Int × Int)) :
    List (Int × Int) :=
  offs.filterMap (fun d =>
    let nr := p.position.1 + d.1
    let nc := p.position.2 + d.2
    if inBounds nr nc then
      match b.cell nr nc with
      | none => some (nr, nc)
      | some t => if t.color ≠ p.color then some (nr, nc) else none
    else none)

/-- One sliding ray of `get_legal_moves` for bishop/rook/queen: step outward,
collecting empty squares, stopping at the board edge or at the first occupied
square (which is kept only when enemy-occupied). -/
def slideRay (b : Board) (pc : Color) (row col dr dc : Int) :
    List Int → List (Int × Int)
  | [] => []
  | i :: rest =>
    let nr := row + i * dr
    let nc := col + i * dc
    if inBounds nr nc then
      match b.cell nr nc with
      | none => (nr, nc) :: slideRay b pc row col dr dc rest
      | some t => if t.color ≠ pc then [(nr, nc)] else []
    else []

/-- The ray directions a bishop/rook/queen slides along, in the order the
Python code extends the `directions` list. -/
def slideDirs (t : PieceType) : List (Int × Int) :=
  (if t = .bishop ∨ t = .queen then diagDirs else []) ++
  (if t = .rook ∨ t = .queen then orthoDirs else [])

/-- One direction of the sliding-piece scan of
`ChessPiece._is_square_attacked`: walk outward from the square; at the first
occupied square, report an attack exactly when the occupant has the
opponent's color and its type can attack along this ray geometry. -/
def attackRayPiece (b : Board) (opp : Color) (row col dr dc : Int) :
    List Int → Bool
  | [] => false
  | i :: rest =>
    let ar := row + i * dr
    let ac := col + i * dc
    if inBounds ar ac then
      match b.cell ar ac with
      | none => attackRayPiece b opp row col dr dc rest
      | some q =>
        if q.color = opp then
          decide ((q.pieceType = .bishop ∧ dr.natAbs = dc.natAbs) ∨
                  (q.pieceType = .rook ∧ (dr = 0 ∨ dc = 0)) ∨
                  q.pieceType = .queen)
        else false
    else false

/-- `ChessPiece._is_square_attacked(board, row, col)`: is the square attacked
by any piece of the opponent of `myColor` (the color of `self`)? -/
def pieceIsSquareAttacked (b : Board) (myColor : Color) (row col : Int) : Bool :=
  let opp := myColor.other
  let pawnDir : Int := if opp = .black then 1 else -1
  let pawnAttack := ([-1, 1] : List Int).any (fun dc =>
    let ar := row + pawnDir
    let ac := col + dc
    if inBounds ar ac then
      match b.cell ar ac with
      | some q => q.pieceType = .pawn ∧ q.color = opp
      | none => false
    else false)
  let knightAttack := knightOffsets.any (fun d =>
    let ar := row + d.1
    let ac := col + d.2
    if inBounds ar ac then
      match b.cell ar ac with
      | some q => q.pieceType = .knight ∧ q.color = opp
      | none => false
    else false)
  let kingAttack := kingOffsets.any (fun d =>
    let ar := row + d.1
    let ac := col + d.2
    if inBounds ar ac then
      match b.cell ar ac with
      | some q => q.pieceType = .king ∧ q.color = opp
      | none => false
    else false)
  let slideAttack := (diagDirs ++ orthoDirs).any (fun d =>
    attackRayPiece b opp row col d.1 d.2 raySteps)
  pawnAttack || knightAttack || kingAttack || slideAttack

/-- `ChessPiece._can_castle_kingside(board)`: the corner `board[row][7]` of
the king's current row must hold an unmoved rook, the squares strictly
between king and corner must be empty, and neither the king's square nor the
two squares it crosses to may be attacked. -/
def can_castle_kingside (b : Board) (p : ChessPiece) : Bool :=
  let row := p.position.1
  let col := p.position.2
  match b.cell row 7 with
  | none => false
  | some rk =>
    if rk.pieceType ≠ .rook ∨ rk.hasMoved then false
    else if (intRange (col + 1) 7).any (fun c => (b.cell row c).isSome) then
      false
    else if pieceIsSquareAttacked b p.color row col then false
    else if (intRange (col + 1) (col + 3)).any
        (fun c => pieceIsSquareAttacked b p.color row c) then false
    else true

/-- `ChessPiece._can_castle_queenside(board)`. -/
def can_castle_queenside (b : Board) (p : ChessPiece) : Bool :=
  let row := p.position.1
  let col := p.position.2
  match b.cell row 0 with
  | none => false
  | some rk =>
    if rk.pieceType ≠ .rook ∨ rk.hasMoved then false
    else if (intRange 1 col).any (fun c => (b.cell row c).isSome) then false
    else if pieceIsSquareAttacked b p.color row col then false
    else if ([col - 1, col - 2] : List Int).any
        (fun c => pieceIsSquareAttacked b p.color row c) then false
    else true

/-- `ChessPiece.get_legal_moves(board)`: the pseudo-legal destinations of a
piece, in the order the Python code appends them. -/
def get_legal_moves (b : Board) (p : ChessPiece) : List (Int × Int) :=
  let row := p.position.1
  let col := p.position.2
  match p.pieceType with
  | .pawn =>
    let direction : Int := if p.color = .white then -1 else 1
    let forward :=
      if 0 ≤ row + direction ∧ row + direction < 8 then
        match b.cell (row + direction) col with
        | none =>
          (row + direction, col) ::
          (if (p.color = .white ∧ row = 6) ∨ (p.color = .black ∧ row = 1) then
            if (0 ≤ row + 2 * direction ∧ row + 2 * direction < 8) ∧
                b.cell (row + 2 * direction) col = none then
              [(row + 2 * direction, col)]
            else []
          else [])
        | some _ => []
      else []
    let captures := ([-1, 1] : List Int).filterMap (fun dc =>
      if (0 ≤ row + direction ∧ row + direction < 8) ∧
          (0 ≤ col + dc ∧ col + dc < 8) then
        match b.cell (row + direction) (col + dc) with
        | some t => if t.color ≠ p.color then some (row + direction, col + dc)
                    else none
        | none => none
      else none)
    let enPassant :=
      match b.last_pawn_double_move with
      | some (er, ec) =>
        if (col - ec).natAbs = 1 ∧ row = er then [(row + direction, ec)] else []
      | none => []
    forward ++ captures ++ enPassant
  | .knight => offsetMoves b p knightOffsets
  | .king =>
    let normal := offsetMoves b p kingOffsets
    let castles :=
      if p.hasMoved then []
      else
        (if can_castle_kingside b p then [(row, col + 2)] else []) ++
        (if can_castle_queenside b p then [(row, col - 2)] else [])
    normal ++ castles
  | _ =>
    (slideDirs p.pieceType).flatMap (fun d =>
      slideRay b p.color row col d.1 d.2 raySteps)

/-- One diagonal direction of `ChessBoard.is_square_attacked`: stop at the
first occupied square; it attacks when it is a bishop or queen of `byColor`
and the displacement is a genuine diagonal. -/
def attackRayBoardDiag (b : Board) (byColor : Color) (row col dr dc : Int) :
    List Int → Bool
  | [] => false
  | i :: rest =>
    let ar := row + i * dr
    let ac := col + i * dc
    if inBounds ar ac then
      match b.cell ar ac with
      | none => attackRayBoardDiag b byColor row col dr dc rest
      | some q =>
        decide (q.color = byColor ∧
                (q.pieceType = .bishop ∨ q.pieceType = .queen) ∧
                (row - ar).natAbs = (col - ac).natAbs)
    else false

/-- One orthogonal direction of `ChessBoard.is_square_attacked`: stop at the
first occupied square; it attacks when it is a rook or queen of `byColor`
on the same row or column. -/
def attackRayBoardOrtho (b : Board) (byColor : Color) (row col dr dc : Int) :
    List Int → Bool
  | [] => false
  | i :: rest =>
    let ar := row + i * dr
    let ac := col + i * dc
    if inBounds ar ac then
      match b.cell ar ac with
      | none => attackRayBoardOrtho b byColor row col dr dc rest
      | some q =>
        decide (q.color = byColor ∧
                (q.pieceType = .rook ∨ q.pieceType = .queen) ∧
                (row = ar ∨ col = ac))
    else false

/-- `ChessBoard.is_square_attacked(row, col, by_color)`. -/
def Board.is_square_attacked (b : Board) (row col : Int) (byColor : Color) :
    Bool :=
  let pawnDir : Int := if byColor = .black then 1 else -1
  let pawnAttack := ([-1, 1] : List Int).any (fun dc =>
    let ar := row + pawnDir
    let ac := col + dc
    if inBounds ar ac then
      match b.cell ar ac with
      | some q => q.pieceType = .pawn ∧ q.color = byColor
      | none => false
    else false)
  let knightAttack := knightOffsets.any (fun d =>
    let ar := row + d.1
    let ac := col + d.2
    if inBounds ar ac then
      match b.cell ar ac with
      | some q => q.pieceType = .knight ∧ q.color = byColor
      | none => false
    else false)
  let kingAttack := kingOffsets.any (fun d =>
    let ar := row + d.1
    let ac := col + d.2
    if inBounds ar ac then
      match b.cell ar ac with
      | some q => q.pieceType = .king ∧ q.color = byColor
      | none => false
    else false)
  let diagAttack := diagDirs.any (fun d =>
    attackRayBoardDiag b byColor row col d.1 d.2 raySteps)
  let orthoAttack := orthoDirs.any (fun d =>
    attackRayBoardOrtho b byColor row col d.1 d.2 raySteps)
  pawnAttack || knightAttack || kingAttack || diagAttack || orthoAttack

/-- The row-major square enumeration
`for row in range(BOARD_SIZE): for col in range(BOARD_SIZE)`. -/
def allSquares : List (Fin 8 × Fin 8) :=
  (List.finRange 8).flatMap (fun i => (List.finRange 8).map (fun j => (i, j)))

/-- The scan of `ChessBoard.find_king`: first king of the color, row-major. -/
def findKingAux (b : Board) (c : Color) :
    List (Fin 8 × Fin 8) → Option (Int × Int)
  | [] => none
  | (i, j) :: rest =>
    match b.grid i j with
    | some p =>
      if p.pieceType = .king ∧ p.color = c then some ((i.val : Int), (j.val : Int))
      else findKingAux b c rest
    | none => findKingAux b c rest

/-- `ChessBoard.find_king(color)`. -/
def Board.find_king (b : Board) (c : Color) : Option (Int × Int) :=
  findKingAux b c allSquares

/-- `ChessBoard.is_king_in_check(color)`: locate the king (defensively `False`
when absent) and ask whether its square is attacked by the opposite color. -/
def Board.is_king_in_check (b : Board) (c : Color) : Bool :=
  match b.find_king c with
  | none => false
  | some (row, col) => b.is_square_attacked row col c.other

/-- `ChessBoard.would_move_cause_check(piece, to_row, to_col)`, transcribed
mutation by mutation: save the captured piece, relocate the piece on the
grid, evaluate `is_king_in_check`, then undo both writes.  The second
component is the state of the board object when the method returns. -/
def would_move_cause_check (b : Board) (p : ChessPiece) (toR toC : Int) :
    Bool × Board :=
  let fromR := p.position.1
  let fromC := p.position.2
  let captured := b.cell toR toC
  let b1 := b.setCell fromR fromC none
  let b2 := b1.setCell toR toC (some { p with position := (toR, toC) })
  let kingInCheck := b2.is_king_in_check p.color
  let b3 := b2.setCell fromR fromC (some p)
  let b4 := b3.setCell toR toC captured
  (kingInCheck, b4)

/-- `ChessBoard.filter_legal_moves_for_check(piece, moves)`: keep the moves
whose simulation does not leave the mover's own king in check, threading the
board state of the simulate-and-restore calls. -/
def filter_legal_moves_for_check (b : Board) (p : ChessPiece) :
    List (Int × Int) → List (Int × Int) × Board
  | [] => ([], b)
  | m :: rest =>
    let r := would_move_cause_check b p m.1 m.2
    let tail := filter_legal_moves_for_check r.2 p rest
    (if r.1 then tail.1 else m :: tail.1, tail.2)

/-- The piece scan of `ChessBoard.is_checkmate`: return `False` as soon as a
piece of the color has a non-empty filtered move list. -/
def checkmateScan (b : Board) (c : Color) :
    List (Fin 8 × Fin 8) → Bool × Board
  | [] => (true, b)
  | (i, j) :: rest =>
    match b.grid i j with
    | some p =>
      if p.color = c then
        let fl := filter_legal_moves_for_check b p (get_legal_moves b p)
        if fl.1 = [] then checkmateScan fl.2 c rest else (false, fl.2)
      else checkmateScan b c rest
    | none => checkmateScan b c rest

/-- `ChessBoard.is_checkmate(color)`. -/
def is_checkmate (b : Board) (c : Color) : Bool × Board :=
  if b.is_king_in_check c then checkmateScan b c allSquares else (false, b)

/-- The aliasing invariant the mutable Python piece objects maintain: every
piece stored in a grid cell records that cell as its `position`. -/
def WellFormed (b : Board) : Prop :=
  ((List.finRange 8).all fun i => (List.finRange 8).all fun j =>
    match b.grid i j with
    | some p => p.position = ((i.val : Int), (j.val : Int))
    | none => true) = true

instance (b : Board) : Decidable (WellFormed b) := by
  unfold WellFormed; infer_instance

/-- `back_row_pieces` of `ChessBoard.setup_pieces`. -/
def backRowPieces : List PieceType :=
  [.rook, .knight, .bishop, .queen, .king, .bishop, .knight, .rook]

/-- The freshly created empty 8×8 grid. -/
def emptyGrid : Grid := fun _ _ => none

/-- `ChessBoard.setup_pieces()`: pawns on rows 1 (black) and 6 (white), the
back rows on rows 0 (black) and 7 (white). -/
def setup_pieces (b : Board) : Board :=
  let b1 := (intRange 0 8).foldl (fun acc col =>
    (acc.setCell 1 col (some ⟨.pawn, .black, (1, col), false⟩)).setCell 6 col
      (some ⟨.pawn, .white, (6, col), false⟩)) b
  backRowPieces.enum.foldl (fun acc ci =>
    ((acc.setCell 0 (ci.1 : Int)
        (some ⟨ci.2, .black, ((0 : Int), (ci.1 : Int)), false⟩)).setCell 7
        (ci.1 : Int) (some ⟨ci.2, .white, ((7 : Int), (ci.1 : Int)), false⟩)))
    b1

/-- The state built by `ChessBoard.__init__` in human-vs-human mode. -/
def initialBoard : Board :=
  setup_pieces { grid := emptyGrid }

/-- `ChessBoard.reset_game(game_mode, ai_difficulty)` (the difficulty only
parameterizes the external engine): empty the grid, clear the bookkeeping
fields, and run `setup_pieces` again.  The animation fields are not reset by
the source and are left untouched. -/
def reset_game (b : Board) (gm : Option Nat) : Board :=
  let gmode := gm.getD b.game_mode
  setup_pieces
    { b with
      game_mode := gmode
      ai := gmode = MODE_HUMAN_VS_AI
      grid := emptyGrid
      selected_piece := none
      legal_moves := []
      turn := .white
      move_history := []
      game_over := false
      game_result := ""
      thinking := false
      last_pawn_double_move := none }

/-- `ChessBoard.select_piece(row, col)`: store the clicked piece of the side
to move together with its check-filtered legal moves; ignore clicks while
the game is over, the engine is thinking, or an animation runs. -/
def select_piece (b : Board) (row col : Int) : Board :=
  if b.game_over || b.thinking || b.animating then b
  else if inBounds row col then
    match b.cell row col with
    | some p =>
      if p.color = b.turn then
        let fl := filter_legal_moves_for_check b p (get_legal_moves b p)
        { fl.2 with selected_piece := some p, legal_moves := fl.1 }
      else { b with selected_piece := none, legal_moves := [] }
    | none => { b with selected_piece := none, legal_moves := [] }
  else b

/-- The grid mutations of `ChessBoard.move_piece` once the move has been
accepted: relocate the selected piece, then perform the castling rook
relocation and the en-passant pawn removal. -/
def move_piece_grid (b : Board) (sp : ChessPiece) (row col : Int) : Board :=
  let oldR := sp.position.1
  let oldC := sp.position.2
  let isCastling := sp.pieceType = PieceType.king ∧ (col - oldC).natAbs = 2
  let isEnPassant := sp.pieceType = PieceType.pawn ∧ oldC ≠ col ∧
    b.cell row col = none
  let b1 := { b with
    move_history := b.move_history ++ [((oldR, oldC), (row, col))] }
  let b2 := b1.setCell row col
    (some { sp with position := (row, col), hasMoved := true })
  let b3 := b2.setCell oldR oldC none
  let b4 :=
    if isCastling then
      if oldC < col then
        match b3.cell row 7 with
        | some rk =>
          (b3.setCell row (col - 1)
            (some { rk with position := (row, col - 1),
                            hasMoved := true })).setCell row 7 none
        | none => b3
      else
        match b3.cell row 0 with
        | some rk =>
          (b3.setCell row (col + 1)
            (some { rk with position := (row, col + 1),
                            hasMoved := true })).setCell row 0 none
        | none => b3
    else b3
  if isEnPassant then b4.setCell oldR col none else b4

/-- The first bookkeeping steps of `ChessBoard.move_piece` after the grid
update: track pawn double moves in `last_pawn_double_move`, switch turns,
and clear the selection. -/
def move_piece_book_pre (b5 : Board) (sp : ChessPiece) (row col : Int) :
    Board :=
  let oldR := sp.position.1
  let b6 := { b5 with
    last_pawn_double_move :=
      if sp.pieceType = PieceType.pawn ∧ (oldR - row).natAbs = 2 then
        some (row, col)
      else none }
  { b6 with
    turn := b6.turn.other
    selected_piece := none
    legal_moves := [] }

/-- The final bookkeeping steps of `ChessBoard.move_piece`: check/checkmate
detection for `opponent_color` (the opposite of the already-switched turn)
and the AI-thinking trigger. -/
def move_piece_book_post (b7 : Board) : Board :=
  let oppColor := b7.turn.other
  let b8 :=
    if b7.is_king_in_check oppColor then
      let cm := is_checkmate b7 oppColor
      if cm.1 then
        { cm.2 with
          game_over := true
          game_result :=
            if oppColor = Color.black then "Checkmate! White wins."
            else "Checkmate! Black wins." }
      else cm.2
    else b7
  if b8.game_mode = MODE_HUMAN_VS_AI ∧ b8.turn = Color.black ∧
      b8.game_over = false then
    if b8.animating then { b8 with pending_ai_move := true }
    else { b8 with thinking := true }
  else b8

/-- The bookkeeping tail of `ChessBoard.move_piece`. -/
def move_piece_book (b5 : Board) (sp : ChessPiece) (row col : Int) : Board :=
  move_piece_book_post (move_piece_book_pre b5 sp row col)

/-- `ChessBoard.move_piece(row, col)` called without `piece_images` (no
animation), transcribed mutation by mutation.  The first component is the
method's return value, the second the state of the board object afterwards. -/
def move_piece (b : Board) (row col : Int) : Bool × Board :=
  if b.game_over || b.thinking || b.animating then (false, b)
  else
    match b.selected_piece with
    | none => (false, b)
    | some sp =>
      if (row, col) ∈ b.legal_moves then
        (true, move_piece_book (move_piece_grid b sp row col) sp row col)
      else (false, b)

/-- `ChessBoard.make_ai_move()` without `piece_images`, with the calls into
the external engine abstracted as parameters: `aiMove` is
`self.ai.get_best_move()`, `aiGameOver`/`aiResult` are
`self.ai.is_game_over()`/`self.ai.get_game_result()`.  The oracle move is
applied by relocating the piece at the from-square; `thinking` is cleared
unconditionally at the end. -/
def make_ai_move (b : Board) (aiMove : Option ((Int × Int) × (Int × Int)))
    (aiGameOver : Bool) (aiResult : String) : Board :=
  let b' :=
    if b.ai ∧ b.turn = .black ∧ b.game_over = false then
      let bMoved :=
        match aiMove with
        | some ((fromR, fromC), (toR, toC)) =>
          match b.cell fromR fromC with
          | some p =>
            let b1 := { b with
              move_history :=
                b.move_history ++ [((fromR, fromC), (toR, toC))] }
            let b2 := b1.setCell toR toC
              (some { p with position := (toR, toC), hasMoved := true })
            let b3 := b2.setCell fromR fromC none
            { b3 with turn := .white }
          | none => b
        | none => b
      if aiGameOver then
        { bMoved with game_over := true, game_result := aiResult }
      else bMoved
    else b
  { b' with thinking := false }

/-- Home squares of castling-relevant pieces: in any position reached from
the standard setup by the game's own moves, an unmoved king still stands on
its starting square and an unmoved rook on one of its starting corners
(every relocation in `move_piece`/`make_ai_move` sets `has_moved`). -/
def pieceHome (p : ChessPiece) (i j : Fin 8) : Bool :=
  if p.hasMoved then true
  else
    match p.pieceType, p.color with
    | .king, .white => i.val = 7 ∧ j.val = 4
    | .king, .black => i.val = 0 ∧ j.val = 4
    | .rook, .white => i.val = 7 ∧ (j.val = 0 ∨ j.val = 7)
    | .rook, .black => i.val = 0 ∧ (j.val = 0 ∨ j.val = 7)
    | _, _ => true

/-- Board states as the game lifecycle produces them: the aliasing invariant
plus the home-square discipline of unmoved kings and rooks. -/
def Invariant (b : Board) : Prop :=
  WellFormed b ∧
  ((List.finRange 8).all fun i => (List.finRange 8).all fun j =>
    match b.grid i j with
    | some p => pieceHome p i j
    | none => true) = true

instance (b : Board) : Decidable (Invariant b) := by
  unfold Invariant; infer_instance

/-- The back rank of a color in the specification's coordinates: row 7 for
White, row 0 for Black. -/
def backRank : Color → Int
  | .white => 7
  | .black => 0

/-- Modelled from the spec wording of the five kingside castling eligibility
conditions: (1) the king has not moved; (2) the piece on the back-rank
corner of column 7 exists, is of matching color, is kind Rook, and has not
moved; (3) all squares strictly between king and rook are empty; (4) the
king's current square is not attacked; (5) neither square the king passes
through or lands on is attacked. -/
def specCastlingKingside (b : Board) (k : ChessPiece) : Prop :=
  k.hasMoved = false ∧
  (∃ rk : ChessPiece, b.cell (backRank k.color) 7 = some rk ∧
    rk.color = k.color ∧ rk.pieceType = .rook ∧ rk.hasMoved = false) ∧
  (∀ c : Int, k.position.2 < c → c < 7 → b.cell k.position.1 c = none) ∧
  pieceIsSquareAttacked b k.color k.position.1 k.position.2 = false ∧
  (pieceIsSquareAttacked b k.color k.position.1 (k.position.2 + 1) = false ∧
   pieceIsSquareAttacked b k.color k.position.1 (k.position.2 + 2) = false)

/-- Modelled from the spec wording of the five queenside castling
eligibility conditions (corner column 0, king crossing one then two columns
to its left). -/
def specCastlingQueenside (b : Board) (k : ChessPiece) : Prop :=
  k.hasMoved = false ∧
  (∃ rk : ChessPiece, b.cell (backRank k.color) 0 = some rk ∧
    rk.color = k.color ∧ rk.pieceType = .rook ∧ rk.hasMoved = false) ∧
  (∀ c : Int, 0 < c → c < k.position.2 → b.cell k.position.1 c = none) ∧
  pieceIsSquareAttacked b k.color k.position.1 k.position.2 = false ∧
  (pieceIsSquareAttacked b k.color k.position.1 (k.position.2 - 1) = false ∧
   pieceIsSquareAttacked b k.color k.position.1 (k.position.2 - 2) = false)

/-- The back-rank piece order Rook-Knight-Bishop-Queen-King-Bishop-Knight-Rook
stated by the specification. -/
def specBackRowKind (j : Fin 8) : PieceType :=
  match j with
  | 0 => .rook
  | 1 => .knight
  | 2 => .bishop
  | 3 => .queen
  | 4 => .king
  | 5 => .bishop
  | 6 => .knight
  | 7 => .rook

/-- Modelled from the spec wording of the standard starting layout: two rows
of pawns (row 1 black, row 6 white) and the back-rank order
Rook-Knight-Bishop-Queen-King-Bishop-Knight-Rook on rows 0 (black) and
7 (white), every piece unmoved. -/
def specStandardLayout : Grid := fun i j =>
  if i.val = 1 then some ⟨.pawn, .black, (1, (j.val : Int)), false⟩
  else if i.val = 6 then some ⟨.pawn, .white, (6, (j.val : Int)), false⟩
  else if i.val = 0 then
    some ⟨specBackRowKind j, .black, (0, (j.val : Int)), false⟩
  else if i.val = 7 then
    some ⟨specBackRowKind j, .white, (7, (j.val : Int)), false⟩
  else none

/-- The White king of `scenarioA`. -/
def kingA : ChessPiece := ⟨.king, .white, ((7 : Int), (4 : Int)), false⟩

/-- Scenario A of the specification: empty board, White King at (7,4),
White Rook at (7,7), White to move. -/
def scenarioA : Board :=
  (({ grid := emptyGrid, turn := .white } : Board).setCell 7 4
    (some ⟨.king, .white, (7, 4), false⟩)).setCell 7 7
    (some ⟨.rook, .white, (7, 7), false⟩)

/-- Scenario C of the specification, one move earlier: White pawn at (3,4),
Black pawn still at (1,3), kings on their home squares, Black to move. -/
def scenarioC0 : Board :=
  (((({ grid := emptyGrid, turn := .black } : Board).setCell 3 4
    (some ⟨.pawn, .white, (3, 4), true⟩)).setCell 1 3
    (some ⟨.pawn, .black, (1, 3), false⟩)).setCell 7 4
    (some ⟨.king, .white, (7, 4), false⟩)).setCell 0 4
    (some ⟨.king, .black, (0, 4), false⟩)

/-- Scenario C after Black's double pawn advance (1,3)→(3,3), played through
`select_piece`/`move_piece`. -/
def scenarioC1 : Board := (move_piece (select_piece scenarioC0 1 3) 3 3).2

/-- Scenario C with the White pawn at (3,4) selected. -/
def scenarioC2 : Board := select_piece scenarioC1 3 4

/-- Scenario F of the specification: White pawn at (1,4) about to reach the
far rank, White to move. -/
def scenarioF : Board :=
  ((({ grid := emptyGrid, turn := .white } : Board).setCell 1 4
    (some ⟨.pawn, .white, (1, 4), true⟩)).setCell 7 4
    (some ⟨.king, .white, (7, 4), false⟩)).setCell 0 0
    (some ⟨.king, .black, (0, 0), true⟩)

/-- Scenario D of the specification: White King alone at (0,7), Black Rooks
at (1,6) and (1,7). -/
def scenarioD : Board :=
  ((({ grid := emptyGrid, turn := .white } : Board).setCell 0 7
    (some ⟨.king, .white, (0, 7), true⟩)).setCell 1 6
    (some ⟨.rook, .black, (1, 6), true⟩)).setCell 1 7
    (some ⟨.rook, .black, (1, 7), true⟩)

/-- A position in which the en-passant capture (3,4)→(2,3) uncovers a rook
check on the White king along row 3: White king (3,0), Black pawn (3,3)
having just advanced two squares, White pawn (3,4), Black rook (3,7). -/
def scenarioEP : Board :=
  ((((({ grid := emptyGrid, turn := .white,
         last_pawn_double_move := some (3, 3) } : Board).setCell 3 0
    (some ⟨.king, .white, (3, 0), true⟩)).setCell 3 3
    (some ⟨.pawn, .black, (3, 3), true⟩)).setCell 3 4
    (some ⟨.pawn, .white, (3, 4), true⟩)).setCell 3 7
    (some ⟨.rook, .black, (3, 7), true⟩)).setCell 0 4
    (some ⟨.king, .black, (0, 4), false⟩)

/-- The White pawn of `scenarioEP`. -/
def epPawn : ChessPiece := ⟨.pawn, .white, (3, 4), true⟩

/-- A board with a selected White pawn, used to exercise the rejection path
of `move_piece`. -/
def boardSelectedPawn : Board :=
  { initialBoard with
    selected_piece := some ⟨.pawn, .white, (6, 0), false⟩
    legal_moves := [(5, 0), (4, 0)] }

/-- A Black-to-move position with the AI enabled: Black king on its home
square, Black rook at (0,7), White king at (7,4). -/
def scenarioAI : Board :=
  ((({ grid := emptyGrid, turn := .black, ai := true,
       game_mode := MODE_HUMAN_VS_AI } : Board).setCell 0 4
    (some ⟨.king, .black, (0, 4), false⟩)).setCell 0 7
    (some ⟨.rook, .black, (0, 7), false⟩)).setCell 7 4
    (some ⟨.king, .white, (7, 4), false⟩)

theorem Board.ext_fields {a b : Board}
    (h1 : a.grid = b.grid) (h2 : a.selected_piece = b.selected_piece)
    (h3 : a.legal_moves = b.legal_moves) (h4 : a.turn = b.turn)
    (h5 : a.game_mode = b.game_mode) (h6 : a.ai = b.ai)
    (h7 : a.move_history = b.move_history) (h8 : a.game_over = b.game_over)
    (h9 : a.game_result = b.game_result) (h10 : a.thinking = b.thinking)
    (h11 : a.pending_ai_move = b.pending_ai_move)
    (h12 : a.animating = b.animating)
    (h13 : a.last_pawn_double_move = b.last_pawn_double_move) : a = b := by
  cases a; cases b; simp_all

theorem cell_setCell_same {b : Board} {r c : Int} (h : inBounds r c)
    (v : Option ChessPiece) : (b.setCell r c v).cell r c = v := by
  unfold Board.setCell Board.cell
  simp [dif_pos h, h]

theorem cell_setCell_other {b : Board} {r c r' c' : Int}
    (h : ¬(r = r' ∧ c = c'))
    (v : Option ChessPiece) : (b.setCell r c v).cell r' c' = b.cell r' c' := by
  unfold Board.setCell Board.cell
  by_cases h2 : inBounds r' c'
  · simp only [dif_pos h2]
    have hne : ¬(inBounds r c ∧ r'.toNat = r.toNat ∧ c'.toNat = c.toNat) := by
      rintro ⟨h1, hr, hc⟩
      unfold inBounds at h1 h2
      exact h ⟨by omega, by omega⟩
    simp [hne]
  · simp [dif_neg h2]

theorem setCell_grid_out (b : Board) {r c : Int} (h : ¬ inBounds r c)
    (v : Option ChessPiece) : (b.setCell r c v).grid = b.grid := by
  unfold Board.setCell
  funext i j
  simp [h]

theorem cell_inBounds {b : Board} {r c : Int} {p : ChessPiece}
    (h : b.cell r c = some p) : inBounds r c := by
  unfold Board.cell at h
  by_cases hb : inBounds r c
  · exact hb
  · simp [dif_neg hb] at h

theorem cell_fin (b : Board) (i j : Fin 8) :
    b.cell (i.val : Int) (j.val : Int) = b.grid i j := by
  have h : inBounds (i.val : Int) (j.val : Int) := by
    unfold inBounds; omega
  unfold Board.cell
  simp only [dif_pos h]
  congr 1

theorem grid_eq_of_cell_eq {a b : Board}
    (h : ∀ r c : Int, a.cell r c = b.cell r c) : a.grid = b.grid := by
  funext i j
  have := h (i.val : Int) (j.val : Int)
  rwa [cell_fin, cell_fin] at this

/-- The simulate-and-restore of `would_move_cause_check` puts the board back
exactly, provided the grid cell at the piece's recorded position holds that
piece (the aliasing invariant the mutable Python objects maintain). -/
theorem wmcc_restores (b : Board) (p : ChessPiece) (toR toC : Int)
    (h : b.cell p.position.1 p.position.2 = some p) :
    (would_move_cause_check b p toR toC).2 = b := by
  have hin : inBounds p.position.1 p.position.2 := cell_inBounds h
  apply Board.ext_fields <;>
    first
    | rfl
    | · apply grid_eq_of_cell_eq
        intro r c
        unfold would_move_cause_check
        dsimp only
        by_cases hto : toR = r ∧ toC = c
        · obtain ⟨rfl, rfl⟩ := hto
          by_cases hb : inBounds toR toC
          · rw [cell_setCell_same hb]
          · unfold Board.cell
            rw [dif_neg hb, dif_neg hb]
        · rw [cell_setCell_other hto]
          by_cases hfrom : p.position.1 = r ∧ p.position.2 = c
          · obtain ⟨hr, hc⟩ := hfrom
            rw [← hr, ← hc, cell_setCell_same hin, h]
          · rw [cell_setCell_other hfrom, cell_setCell_other hto,
              cell_setCell_other hfrom]

/-- Under the aliasing invariant for the filtered piece, the threaded board
of `filter_legal_moves_for_check` is the input board and the returned moves
are the list-filter by the simulation verdicts. -/
theorem filter_legal_restores (b : Board) (p : ChessPiece)
    (h : b.cell p.position.1 p.position.2 = some p) :
    ∀ ms : List (Int × Int),
      (filter_legal_moves_for_check b p ms).2 = b ∧
      (filter_legal_moves_for_check b p ms).1 =
        ms.filter (fun m => !(would_move_cause_check b p m.1 m.2).1)
  | [] => ⟨rfl, rfl⟩
  | m :: rest => by
    have hr := wmcc_restores b p m.1 m.2 h
    have ih := filter_legal_restores b p h rest
    unfold filter_legal_moves_for_check
    dsimp only
    rw [hr]
    refine ⟨ih.1, ?_⟩
    rw [ih.2, List.filter_cons]
    by_cases hc : (would_move_cause_check b p m.1 m.2).1
    · simp [hc]
    · simp [hc]

theorem WellFormed.position_eq {b : Board} (h : WellFormed b) {i j : Fin 8}
    {p : ChessPiece} (hp : b.grid i j = some p) :
    p.position = ((i.val : Int), (j.val : Int)) := by
  unfold WellFormed at h
  simp only [List.all_eq_true, List.mem_finRange, forall_const] at h
  have := h i j
  rw [hp] at this
  simpa using this

theorem WellFormed.cell_self {b : Board} (h : WellFormed b) {i j : Fin 8}
    {p : ChessPiece} (hp : b.grid i j = some p) :
    b.cell p.position.1 p.position.2 = some p := by
  rw [h.position_eq hp]
  rw [cell_fin]
  exact hp

/-- On a well-formed board the checkmate piece scan returns `True` exactly
when every scanned piece of the color has an empty filtered move list, and
it leaves the board unchanged. -/
theorem checkmateScan_iff (b : Board) (c : Color) (hwf : WellFormed b) :
    ∀ l : List (Fin 8 × Fin 8),
      ((checkmateScan b c l).1 = true ↔
        ∀ ij ∈ l, ∀ p : ChessPiece, b.grid ij.1 ij.2 = some p → p.color = c →
          (filter_legal_moves_for_check b p (get_legal_moves b p)).1 = [])
  | [] => by simp [checkmateScan]
  | (i, j) :: rest => by
    have ih := checkmateScan_iff b c hwf rest
    have hstep : checkmateScan b c ((i, j) :: rest) =
        (match b.grid i j with
         | some p =>
           if p.color = c then
             let fl := filter_legal_moves_for_check b p (get_legal_moves b p)
             if fl.1 = [] then checkmateScan fl.2 c rest else (false, fl.2)
           else checkmateScan b c rest
         | none => checkmateScan b c rest) := rfl
    rw [hstep]
    cases hcell : b.grid i j with
    | none =>
      dsimp only
      rw [ih]
      constructor
      · intro h1 ij hij q hq hqc
        rcases List.mem_cons.mp hij with heq | hij
        · subst heq
          dsimp only at hq
          rw [hcell] at hq
          cases hq
        · exact h1 ij hij q hq hqc
      · intro h1 ij hij q hq hqc
        exact h1 ij (List.mem_cons_of_mem _ hij) q hq hqc
    | some p =>
      dsimp only
      have hfl := filter_legal_restores b p (hwf.cell_self hcell)
        (get_legal_moves b p)
      by_cases hc : p.color = c
      · rw [if_pos hc]
        rw [hfl.1]
        by_cases hemp : (filter_legal_moves_for_check b p
            (get_legal_moves b p)).1 = []
        · rw [if_pos hemp, ih]
          constructor
          · intro h1 ij hij q hq hqc
            rcases List.mem_cons.mp hij with heq | hij
            · subst heq
              dsimp only at hq
              rw [hcell] at hq
              cases hq
              exact hemp
            · exact h1 ij hij q hq hqc
          · intro h1 ij hij q hq hqc
            exact h1 ij (List.mem_cons_of_mem _ hij) q hq hqc
        · rw [if_neg hemp]
          dsimp only
          constructor
          · intro h1; cases h1
          · intro h1
            exact absurd (h1 (i, j) (List.mem_cons_self _ _) p hcell hc) hemp
      · rw [if_neg hc, ih]
        constructor
        · intro h1 ij hij q hq hqc
          rcases List.mem_cons.mp hij with heq | hij
          · subst heq
            dsimp only at hq
            rw [hcell] at hq
            cases hq
            exact absurd hqc hc
          · exact h1 ij hij q hq hqc
        · intro h1 ij hij q hq hqc
          exact h1 ij (List.mem_cons_of_mem _ hij) q hq hqc

theorem Board.cell_eq_of_grid_eq {a b : Board} (h : a.grid = b.grid)
    (r c : Int) : a.cell r c = b.cell r c := by
  unfold Board.cell
  rw [h]

theorem mem_allSquares (ij : Fin 8 × Fin 8) : ij ∈ allSquares := by
  obtain ⟨i, j⟩ := ij
  unfold allSquares
  rw [List.mem_flatMap]
  exact ⟨i, List.mem_finRange i, List.mem_map.mpr ⟨j, List.mem_finRange j, rfl⟩⟩

theorem reset_grid_standard (b : Board) (gm : Option Nat) :
    (reset_game b gm).grid = specStandardLayout := by
  funext i j
  fin_cases i <;> fin_cases j <;> rfl

/-- C7: `would_move_cause_check` restores the board exactly — given the
aliasing invariant that the grid cell at the piece's recorded position holds
the piece, the state of the board object after the call equals its state
before the call, for every destination; no mutation leaks out of the
simulation. -/
theorem claim_C7_simulation_restores_board (b : Board) (p : ChessPiece)
    (toR toC : Int)
    (h : b.cell p.position.1 p.position.2 = some p) :
    (would_move_cause_check b p toR toC).2 = b :=
  wmcc_restores b p toR toC h

theorem claim_C7_witness :
    scenarioA.cell (7 : Int) (4 : Int) =
      some ⟨.king, .white, ((7 : Int), (4 : Int)), false⟩ ∧
    (would_move_cause_check scenarioA
      ⟨.king, .white, ((7 : Int), (4 : Int)), false⟩ 5 4).2 = scenarioA :=
  ⟨by decide,
   claim_C7_simulation_restores_board scenarioA
     ⟨.king, .white, ((7 : Int), (4 : Int)), false⟩ 5 4 (by decide)⟩

/-- C5: calling `move_piece` with a destination that is not among the stored
filtered legal moves of the selected piece returns `False` and leaves the
whole board state — grid, turn, move history, `last_pawn_double_move`, and
every piece — unmodified. -/
theorem claim_C5_illegal_move_rejected (b : Board) (row col : Int)
    (sp : ChessPiece) (hsel : b.selected_piece = some sp)
    (hmem : (row, col) ∉ b.legal_moves) :
    move_piece b row col = (false, b) := by
  unfold move_piece
  by_cases hg : (b.game_over || b.thinking || b.animating) = true
  · rw [if_pos hg]
  · rw [if_neg hg, hsel]
    dsimp only
    rw [if_neg hmem]

theorem claim_C5_witness :
    boardSelectedPawn.selected_piece =
      some ⟨.pawn, .white, ((6 : Int), (0 : Int)), false⟩ ∧
    ((3 : Int), (0 : Int)) ∉ boardSelectedPawn.legal_moves ∧
    move_piece boardSelectedPawn 3 0 = (false, boardSelectedPawn) :=
  ⟨by decide, by decide,
   claim_C5_illegal_move_rejected boardSelectedPawn 3 0
     ⟨.pawn, .white, ((6 : Int), (0 : Int)), false⟩ rfl (by decide)⟩

/-- C4: on the Scenario-A board the king's filtered legal moves include
(7,6), the move (7,4)→(7,6) is accepted, and afterwards the king sits at
(7,6) and the rook at (7,5), both marked as having moved, with the origin
and corner squares cleared. -/
theorem claim_C4_kingside_castling_scenario :
    ((7 : Int), (6 : Int)) ∈ (select_piece scenarioA 7 4).legal_moves ∧
    (move_piece (select_piece scenarioA 7 4) 7 6).1 = true ∧
    (move_piece (select_piece scenarioA 7 4) 7 6).2.cell 7 6 =
      some ⟨.king, .white, ((7 : Int), (6 : Int)), true⟩ ∧
    (move_piece (select_piece scenarioA 7 4) 7 6).2.cell 7 5 =
      some ⟨.rook, .white, ((7 : Int), (5 : Int)), true⟩ ∧
    (move_piece (select_piece scenarioA 7 4) 7 6).2.cell 7 4 = none ∧
    (move_piece (select_piece scenarioA 7 4) 7 6).2.cell 7 7 = none := by
  decide

/-- C6: after Black's double advance (1,3)→(3,3), the White pawn at (3,4) may
capture en passant at (2,3); playing it removes the Black pawn from (3,3)
and puts the White pawn on (2,3). -/
theorem claim_C6_en_passant_scenario :
    scenarioC1.last_pawn_double_move = some ((3 : Int), (3 : Int)) ∧
    ((2 : Int), (3 : Int)) ∈ scenarioC2.legal_moves ∧
    (move_piece scenarioC2 2 3).1 = true ∧
    (move_piece scenarioC2 2 3).2.cell 3 3 = none ∧
    (move_piece scenarioC2 2 3).2.cell 2 3 =
      some ⟨.pawn, .white, ((2 : Int), (3 : Int)), true⟩ ∧
    (move_piece scenarioC2 2 3).2.cell 3 4 = none := by
  decide

/-- C2 (code bug): a White pawn moved from (1,4) to the far rank square
(0,4) is accepted, but the piece left on (0,4) is still a Pawn — `move_piece`
contains no promotion step, contradicting the specified replacement by a
Queen. -/
theorem claim_C2_no_promotion_happens :
    (move_piece (select_piece scenarioF 1 4) 0 4).1 = true ∧
    (move_piece (select_piece scenarioF 1 4) 0 4).2.cell 0 4 =
      some ⟨.pawn, .white, ((0 : Int), (4 : Int)), true⟩ := by
  decide

/-- C1 (code bug): the check filter simulates only the relocation of the
moving piece, so the en-passant capture (3,4)→(2,3) of `scenarioEP` survives
the filter although actually playing it (which also removes the Black pawn
at (3,3)) leaves the White king in check from the rook at (3,7). -/
theorem claim_C1_filtered_move_leaves_king_in_check :
    ((2 : Int), (3 : Int)) ∈ (filter_legal_moves_for_check scenarioEP epPawn
      (get_legal_moves scenarioEP epPawn)).1 ∧
    ((2 : Int), (3 : Int)) ∈ (select_piece scenarioEP 3 4).legal_moves ∧
    (move_piece (select_piece scenarioEP 3 4) 2 3).1 = true ∧
    (move_piece (select_piece scenarioEP 3 4) 2 3).2.cell 3 3 = none ∧
    (move_piece (select_piece scenarioEP 3 4) 2 3).2.is_king_in_check .white
      = true := by
  decide

/-- C8: on well-formed boards `is_checkmate(color)` is `True` exactly when
the king of that color is in check and every piece of the color has an empty
check-filtered move list; and both facts hold in Scenario D. -/
theorem claim_C8_checkmate_iff :
    (∀ (b : Board) (c : Color), WellFormed b →
      ((is_checkmate b c).1 = true ↔
        (b.is_king_in_check c = true ∧
          ∀ (i j : Fin 8) (p : ChessPiece), b.grid i j = some p →
            p.color = c →
            (filter_legal_moves_for_check b p (get_legal_moves b p)).1 =
              []))) ∧
    scenarioD.is_king_in_check .white = true ∧
    (is_checkmate scenarioD .white).1 = true := by
  refine ⟨?_, by decide, by decide⟩
  intro b c hwf
  unfold is_checkmate
  by_cases hk : b.is_king_in_check c = true
  · rw [if_pos hk]
    rw [checkmateScan_iff b c hwf allSquares]
    constructor
    · intro h1
      exact ⟨hk, fun i j p hp hc => h1 (i, j) (mem_allSquares (i, j)) p hp hc⟩
    · rintro ⟨_, h2⟩ ij _ p hp hc
      exact h2 ij.1 ij.2 p hp hc
  · rw [if_neg hk]
    constructor
    · intro h1
      cases h1
    · rintro ⟨hk', _⟩
      exact absurd hk' hk

theorem claim_C8_witness :
    (is_checkmate scenarioD .white).1 = true ↔
      (scenarioD.is_king_in_check .white = true ∧
        ∀ (i j : Fin 8) (p : ChessPiece), scenarioD.grid i j = some p →
          p.color = .white →
          (filter_legal_moves_for_check scenarioD p
            (get_legal_moves scenarioD p)).1 = []) :=
  claim_C8_checkmate_iff.1 scenarioD .white (by decide)

/-- C9: once `game_over` is set, `move_piece` and `select_piece` leave the
board object untouched; `reset_game` recreates the standard starting layout
with White to move, an empty move history and `game_over` cleared. -/
theorem claim_C9_game_over_terminal_until_reset :
    (∀ (b : Board) (row col : Int), b.game_over = true →
      move_piece b row col = (false, b) ∧ select_piece b row col = b) ∧
    (∀ (b : Board) (gm : Option Nat),
      (reset_game b gm).grid = specStandardLayout ∧
      (reset_game b gm).turn = Color.white ∧
      (reset_game b gm).move_history = [] ∧
      (reset_game b gm).game_over = false) := by
  constructor
  · intro b row col h
    constructor
    · unfold move_piece
      rw [if_pos (by rw [h]; rfl)]
    · unfold select_piece
      rw [if_pos (by rw [h]; rfl)]
  · intro b gm
    exact ⟨reset_grid_standard b gm, rfl, rfl, rfl⟩

theorem claim_C9_witness :
    (move_piece { initialBoard with game_over := true } 6 0 =
      (false, { initialBoard with game_over := true }) ∧
     select_piece { initialBoard with game_over := true } 6 0 =
      { initialBoard with game_over := true }) :=
  claim_C9_game_over_terminal_until_reset.1
    { initialBoard with game_over := true } 6 0 rfl

theorem make_ai_move_grid (b : Board) (fromR fromC toR toC : Int)
    (p : ChessPiece) (ago : Bool) (ares : String)
    (hai : b.ai = true) (ht : b.turn = Color.black) (hgo : b.game_over = false)
    (hp : b.cell fromR fromC = some p) :
    (make_ai_move b (some ((fromR, fromC), (toR, toC))) ago ares).grid =
      ((b.setCell toR toC
        (some { p with position := (toR, toC), hasMoved := true })).setCell
        fromR fromC none).grid := by
  unfold make_ai_move
  rw [if_pos ⟨hai, ht, hgo⟩]
  dsimp only
  rw [hp]
  cases ago <;> rfl

/-- C10: `make_ai_move` applies an oracle-supplied move by relocating the
single piece found at the from-square and nothing else: every other square
(including the castling rook corner and an en-passant victim's square) keeps
its content, the moved piece keeps its kind (a promoted pawn stays a pawn),
and `last_pawn_double_move` is never updated. -/
theorem claim_C10_ai_move_relocates_single_piece (b : Board)
    (fromR fromC toR toC : Int) (p : ChessPiece) (ago : Bool) (ares : String)
    (hai : b.ai = true) (ht : b.turn = Color.black) (hgo : b.game_over = false)
    (hp : b.cell fromR fromC = some p) (hb : inBounds toR toC)
    (hne : ¬(toR = fromR ∧ toC = fromC)) :
    (make_ai_move b (some ((fromR, fromC), (toR, toC)))
        ago ares).last_pawn_double_move = b.last_pawn_double_move ∧
    (make_ai_move b (some ((fromR, fromC), (toR, toC))) ago ares).cell toR toC
      = some { p with position := (toR, toC), hasMoved := true } ∧
    (make_ai_move b (some ((fromR, fromC), (toR, toC))) ago ares).cell
      fromR fromC = none ∧
    ∀ r c : Int, ¬(toR = r ∧ toC = c) → ¬(fromR = r ∧ fromC = c) →
      (make_ai_move b (some ((fromR, fromC), (toR, toC))) ago ares).cell r c
        = b.cell r c := by
  have hgrid := make_ai_move_grid b fromR fromC toR toC p ago ares
    hai ht hgo hp
  refine ⟨?_, ?_, ?_, ?_⟩
  · unfold make_ai_move
    rw [if_pos ⟨hai, ht, hgo⟩]
    dsimp only
    rw [hp]
    cases ago <;> rfl
  · rw [Board.cell_eq_of_grid_eq hgrid]
    rw [cell_setCell_other (fun hh => hne ⟨hh.1.symm, hh.2.symm⟩)]
    exact cell_setCell_same hb _
  · rw [Board.cell_eq_of_grid_eq hgrid]
    exact cell_setCell_same (cell_inBounds hp) _
  · intro r c h1 h2
    rw [Board.cell_eq_of_grid_eq hgrid, cell_setCell_other h2,
      cell_setCell_other h1]

theorem claim_C10_witness :
    scenarioAI.cell (0 : Int) (4 : Int) =
      some ⟨.king, .black, ((0 : Int), (4 : Int)), false⟩ ∧
    ((make_ai_move scenarioAI (some ((0, 4), (0, 6)))
        false "").last_pawn_double_move = scenarioAI.last_pawn_double_move ∧
     (make_ai_move scenarioAI (some ((0, 4), (0, 6))) false "").cell 0 6
       = some ⟨.king, .black, ((0 : Int), (6 : Int)), true⟩ ∧
     (make_ai_move scenarioAI (some ((0, 4), (0, 6))) false "").cell 0 4
       = none ∧
     ∀ r c : Int, ¬((0 : Int) = r ∧ (6 : Int) = c) →
       ¬((0 : Int) = r ∧ (4 : Int) = c) →
       (make_ai_move scenarioAI (some ((0, 4), (0, 6))) false "").cell r c
         = scenarioAI.cell r c) :=
  ⟨by decide,
   claim_C10_ai_move_relocates_single_piece scenarioAI 0 4 0 6
     ⟨.king, .black, ((0 : Int), (4 : Int)), false⟩ false ""
     rfl rfl rfl (by decide) (by decide) (by decide)⟩

theorem mem_offsetMoves {b : Board} {p : ChessPiece} {offs : List (Int × Int)}
    {x : Int × Int} (h : x ∈ offsetMoves b p offs) :
    ∃ d ∈ offs, x = (p.position.1 + d.1, p.position.2 + d.2) := by
  unfold offsetMoves at h
  rw [List.mem_filterMap] at h
  obtain ⟨d, hd, hfd⟩ := h
  refine ⟨d, hd, ?_⟩
  dsimp only at hfd
  split at hfd
  · split at hfd
    · exact (Option.some.inj hfd).symm
    · split at hfd
      · exact (Option.some.inj hfd).symm
      · cases hfd
  · cases hfd

theorem Invariant.home {b : Board} (h : Invariant b) {i j : Fin 8}
    {p : ChessPiece} (hp : b.grid i j = some p) : pieceHome p i j = true := by
  have h2 := h.2
  simp only [List.all_eq_true, List.mem_finRange, forall_const] at h2
  have := h2 i j
  rw [hp] at this
  simpa using this

theorem Invariant.unmoved_white_king {b : Board} (h : Invariant b) {i j : Fin 8}
    {p : ChessPiece} (hp : b.grid i j = some p) (hk : p.pieceType = .king)
    (hc : p.color = .white) (hm : p.hasMoved = false) :
    i.val = 7 ∧ j.val = 4 := by
  have hh := h.home hp
  unfold pieceHome at hh
  rw [hm, hk, hc] at hh
  simpa using hh

theorem Invariant.unmoved_black_king {b : Board} (h : Invariant b) {i j : Fin 8}
    {p : ChessPiece} (hp : b.grid i j = some p) (hk : p.pieceType = .king)
    (hc : p.color = .black) (hm : p.hasMoved = false) :
    i.val = 0 ∧ j.val = 4 := by
  have hh := h.home hp
  unfold pieceHome at hh
  rw [hm, hk, hc] at hh
  simpa using hh

theorem Invariant.unmoved_rook_row {b : Board} (h : Invariant b) {i j : Fin 8}
    {p : ChessPiece} (hp : b.grid i j = some p) (hk : p.pieceType = .rook)
    (hm : p.hasMoved = false) :
    (p.color = .white → i.val = 7) ∧ (p.color = .black → i.val = 0) := by
  have hh := h.home hp
  unfold pieceHome at hh
  rw [hm, hk] at hh
  constructor
  · intro hc
    rw [hc] at hh
    exact (by simpa using hh : i.val = 7 ∧ _).1
  · intro hc
    rw [hc] at hh
    exact (by simpa using hh : i.val = 0 ∧ _).1

theorem can_castle_kingside_eq_true_iff (b : Board) (k : ChessPiece) :
    can_castle_kingside b k = true ↔
      ((∃ rk : ChessPiece, b.cell k.position.1 7 = some rk ∧
          rk.pieceType = .rook ∧ rk.hasMoved = false) ∧
        ((intRange (k.position.2 + 1) 7).any
          (fun c => (b.cell k.position.1 c).isSome)) = false ∧
        pieceIsSquareAttacked b k.color k.position.1 k.position.2 = false ∧
        ((intRange (k.position.2 + 1) (k.position.2 + 3)).any
          (fun c => pieceIsSquareAttacked b k.color k.position.1 c)) =
          false) := by
  unfold can_castle_kingside
  dsimp only
  cases hcell : b.cell k.position.1 7 with
  | none =>
    dsimp only
    constructor
    · intro h
      cases h
    · rintro ⟨⟨rk, hrk, _⟩, _⟩
      cases hrk
  | some rk =>
    dsimp only
    by_cases h1 : rk.pieceType ≠ PieceType.rook ∨ rk.hasMoved = true
    · rw [if_pos h1]
      constructor
      · intro h
        cases h
      · rintro ⟨⟨rk', hrk', hrt', hrm'⟩, _⟩
        cases hrk'
        rcases h1 with h1 | h1
        · exact absurd hrt' h1
        · rw [h1] at hrm'
          cases hrm'
    · rw [if_neg h1]
      push_neg at h1
      have hrt : rk.pieceType = PieceType.rook := h1.1
      have hrm : rk.hasMoved = false := by
        cases hmv : rk.hasMoved
        · rfl
        · exact absurd hmv h1.2
      by_cases h2 : ((intRange (k.position.2 + 1) 7).any
          (fun c => (b.cell k.position.1 c).isSome)) = true
      · rw [if_pos h2]
        constructor
        · intro h
          cases h
        · rintro ⟨_, hbet, _⟩
          rw [h2] at hbet
          cases hbet
      · rw [if_neg h2]
        have h2' := Bool.not_eq_true _ ▸ h2
        by_cases h3 : pieceIsSquareAttacked b k.color k.position.1
            k.position.2 = true
        · rw [if_pos h3]
          constructor
          · intro h
            cases h
          · rintro ⟨_, _, hat, _⟩
            rw [h3] at hat
            cases hat
        · rw [if_neg h3]
          by_cases h4 : ((intRange (k.position.2 + 1) (k.position.2 + 3)).any
              (fun c => pieceIsSquareAttacked b k.color k.position.1 c)) = true
          · rw [if_pos h4]
            constructor
            · intro h
              cases h
            · rintro ⟨_, _, _, htr⟩
              rw [h4] at htr
              cases htr
          · rw [if_neg h4]
            refine iff_of_true rfl
              ⟨⟨rk, rfl, hrt, hrm⟩, ?_, ?_, ?_⟩
            · exact Bool.not_eq_true _ ▸ h2
            · exact Bool.not_eq_true _ ▸ h3
            · exact Bool.not_eq_true _ ▸ h4

theorem can_castle_queenside_eq_true_iff (b : Board) (k : ChessPiece) :
    can_castle_queenside b k = true ↔
      ((∃ rk : ChessPiece, b.cell k.position.1 0 = some rk ∧
          rk.pieceType = .rook ∧ rk.hasMoved = false) ∧
        ((intRange 1 k.position.2).any
          (fun c => (b.cell k.position.1 c).isSome)) = false ∧
        pieceIsSquareAttacked b k.color k.position.1 k.position.2 = false ∧
        (([k.position.2 - 1, k.position.2 - 2] : List Int).any
          (fun c => pieceIsSquareAttacked b k.color k.position.1 c)) =
          false) := by
  unfold can_castle_queenside
  dsimp only
  cases hcell : b.cell k.position.1 0 with
  | none =>
    dsimp only
    constructor
    · intro h
      cases h
    · rintro ⟨⟨rk, hrk, _⟩, _⟩
      cases hrk
  | some rk =>
    dsimp only
    by_cases h1 : rk.pieceType ≠ PieceType.rook ∨ rk.hasMoved = true
    · rw [if_pos h1]
      constructor
      · intro h
        cases h
      · rintro ⟨⟨rk', hrk', hrt', hrm'⟩, _⟩
        cases hrk'
        rcases h1 with h1 | h1
        · exact absurd hrt' h1
        · rw [h1] at hrm'
          cases hrm'
    · rw [if_neg h1]
      push_neg at h1
      have hrt : rk.pieceType = PieceType.rook := h1.1
      have hrm : rk.hasMoved = false := by
        cases hmv : rk.hasMoved
        · rfl
        · exact absurd hmv h1.2
      by_cases h2 : ((intRange 1 k.position.2).any
          (fun c => (b.cell k.position.1 c).isSome)) = true
      · rw [if_pos h2]
        constructor
        · intro h
          cases h
        · rintro ⟨_, hbet, _⟩
          rw [h2] at hbet
          cases hbet
      · rw [if_neg h2]
        by_cases h3 : pieceIsSquareAttacked b k.color k.position.1
            k.position.2 = true
        · rw [if_pos h3]
          constructor
          · intro h
            cases h
          · rintro ⟨_, _, hat, _⟩
            rw [h3] at hat
            cases hat
        · rw [if_neg h3]
          by_cases h4 : (([k.position.2 - 1, k.position.2 - 2] : List Int).any
              (fun c => pieceIsSquareAttacked b k.color k.position.1 c)) = true
          · rw [if_pos h4]
            constructor
            · intro h
              cases h
            · rintro ⟨_, _, _, htr⟩
              rw [h4] at htr
              cases htr
          · rw [if_neg h4]
            refine iff_of_true rfl
              ⟨⟨rk, rfl, hrt, hrm⟩, ?_, ?_, ?_⟩
            · exact Bool.not_eq_true _ ▸ h2
            · exact Bool.not_eq_true _ ▸ h3
            · exact Bool.not_eq_true _ ▸ h4

theorem king_kingside_dest_mem (b : Board) (k : ChessPiece)
    (hking : k.pieceType = .king) :
    ((k.position.1, k.position.2 + 2) ∈ get_legal_moves b k) ↔
      (k.hasMoved = false ∧ can_castle_kingside b k = true) := by
  unfold get_legal_moves
  rw [hking]
  dsimp only
  rw [List.mem_append]
  constructor
  · rintro (hmem | hmem)
    · obtain ⟨d, hd, heq⟩ := mem_offsetMoves hmem
      rw [Prod.mk.injEq] at heq
      obtain ⟨h1, h2⟩ := heq
      fin_cases hd <;> omega
    · by_cases hm : k.hasMoved = true
      · rw [if_pos hm] at hmem
        cases hmem
      · rw [if_neg hm, List.mem_append] at hmem
        refine ⟨Bool.not_eq_true _ ▸ hm, ?_⟩
        rcases hmem with hmem | hmem
        · by_cases hk : can_castle_kingside b k = true
          · exact hk
          · rw [if_neg hk] at hmem
            cases hmem
        · by_cases hq : can_castle_queenside b k = true
          · rw [if_pos hq] at hmem
            rw [List.mem_singleton, Prod.mk.injEq] at hmem
            omega
          · rw [if_neg hq] at hmem
            cases hmem
  · rintro ⟨hm, hk⟩
    right
    rw [if_neg (by rw [hm]; exact Bool.false_ne_true), List.mem_append]
    left
    rw [if_pos hk]
    exact List.mem_singleton.mpr rfl

theorem king_queenside_dest_mem (b : Board) (k : ChessPiece)
    (hking : k.pieceType = .king) :
    ((k.position.1, k.position.2 - 2) ∈ get_legal_moves b k) ↔
      (k.hasMoved = false ∧ can_castle_queenside b k = true) := by
  unfold get_legal_moves
  rw [hking]
  dsimp only
  rw [List.mem_append]
  constructor
  · rintro (hmem | hmem)
    · obtain ⟨d, hd, heq⟩ := mem_offsetMoves hmem
      rw [Prod.mk.injEq] at heq
      obtain ⟨h1, h2⟩ := heq
      fin_cases hd <;> omega
    · by_cases hm : k.hasMoved = true
      · rw [if_pos hm] at hmem
        cases hmem
      · rw [if_neg hm, List.mem_append] at hmem
        refine ⟨Bool.not_eq_true _ ▸ hm, ?_⟩
        rcases hmem with hmem | hmem
        · by_cases hk : can_castle_kingside b k = true
          · rw [if_pos hk] at hmem
            rw [List.mem_singleton, Prod.mk.injEq] at hmem
            omega
          · rw [if_neg hk] at hmem
            cases hmem
        · by_cases hq : can_castle_queenside b k = true
          · exact hq
          · rw [if_neg hq] at hmem
            cases hmem
  · rintro ⟨hm, hq⟩
    right
    rw [if_neg (by rw [hm]; exact Bool.false_ne_true), List.mem_append]
    right
    rw [if_pos hq]
    exact List.mem_singleton.mpr rfl

theorem grid_of_cell {b : Board} {r c : Int} {p : ChessPiece}
    (h : b.cell r c = some p) :
    ∃ (i j : Fin 8), b.grid i j = some p ∧ (i.val : Int) = r ∧
      (j.val : Int) = c := by
  have hb := cell_inBounds h
  have hb' := hb
  unfold inBounds at hb'
  unfold Board.cell at h
  rw [dif_pos hb] at h
  exact ⟨⟨r.toNat, by omega⟩, ⟨c.toNat, by omega⟩, h, by simp; omega,
    by simp; omega⟩

theorem rook_color_matches {b : Board} {k rk : ChessPiece} (hInv : Invariant b)
    {cc : Int} (hrk : b.cell (backRank k.color) cc = some rk)
    (hrt : rk.pieceType = .rook) (hrm : rk.hasMoved = false) :
    rk.color = k.color := by
  obtain ⟨i, j, hgrid, hi, _⟩ := grid_of_cell hrk
  have hrow := hInv.unmoved_rook_row hgrid hrt hrm
  cases hkc : k.color with
  | white =>
    cases hrc : rk.color with
    | white => rfl
    | black =>
      exfalso
      rw [hkc] at hi
      have h0 := hrow.2 hrc
      have hi' : ((i.val : Nat) : Int) = 7 := hi
      omega
  | black =>
    cases hrc : rk.color with
    | black => rfl
    | white =>
      exfalso
      rw [hkc] at hi
      have h7 := hrow.1 hrc
      have hi' : ((i.val : Nat) : Int) = 0 := hi
      omega

theorem castle_kingside_spec_iff (b : Board) (k : ChessPiece)
    (hInv : Invariant b) (hm : k.hasMoved = false)
    (hr : k.position.1 = backRank k.color) (hc4 : k.position.2 = 4) :
    (can_castle_kingside b k = true ↔ specCastlingKingside b k) := by
  rw [can_castle_kingside_eq_true_iff]
  unfold specCastlingKingside
  have e1 : intRange (k.position.2 + 1) 7 = [5, 6] := by
    rw [hc4]; decide
  have e2 : intRange (k.position.2 + 1) (k.position.2 + 3) = [5, 6] := by
    rw [hc4]; decide
  rw [e1, e2]
  constructor
  · rintro ⟨⟨rk, hrk, hrt, hrm⟩, hbet, hatt, htr⟩
    rw [hr] at hrk
    have hcolor := rook_color_matches hInv hrk hrt hrm
    refine ⟨hm, ⟨rk, hrk, hcolor, hrt, hrm⟩, ?_, hatt, ?_, ?_⟩
    · intro c hlo hhi
      simp only [List.any_cons, List.any_nil, Bool.or_eq_false_iff] at hbet
      have hc56 : c = 5 ∨ c = 6 := by omega
      rcases hc56 with rfl | rfl
      · rw [← Option.not_isSome_iff_eq_none]
        simp [hbet.1]
      · rw [← Option.not_isSome_iff_eq_none]
        simp [hbet.2.1]
    · simp only [List.any_cons, List.any_nil, Bool.or_eq_false_iff] at htr
      rw [hc4]
      show pieceIsSquareAttacked b k.color k.position.1 (4 + 1) = false
      norm_num
      exact htr.1
    · simp only [List.any_cons, List.any_nil, Bool.or_eq_false_iff] at htr
      rw [hc4]
      show pieceIsSquareAttacked b k.color k.position.1 (4 + 2) = false
      norm_num
      exact htr.2.1
  · rintro ⟨_, ⟨rk, hrk, _, hrt, hrm⟩, hbet, hatt, htr1, htr2⟩
    rw [← hr] at hrk
    refine ⟨⟨rk, hrk, hrt, hrm⟩, ?_, hatt, ?_⟩
    · simp only [List.any_cons, List.any_nil, Bool.or_eq_false_iff]
      refine ⟨?_, ?_, trivial⟩
      · have := hbet 5 (by omega) (by omega)
        simp [this]
      · have := hbet 6 (by omega) (by omega)
        simp [this]
    · simp only [List.any_cons, List.any_nil, Bool.or_eq_false_iff]
      rw [hc4] at htr1 htr2
      refine ⟨?_, ?_, trivial⟩
      · have : (4 : Int) + 1 = 5 := by norm_num
        rw [this] at htr1
        exact htr1
      · have : (4 : Int) + 2 = 6 := by norm_num
        rw [this] at htr2
        exact htr2

theorem castle_queenside_spec_iff (b : Board) (k : ChessPiece)
    (hInv : Invariant b) (hm : k.hasMoved = false)
    (hr : k.position.1 = backRank k.color) (hc4 : k.position.2 = 4) :
    (can_castle_queenside b k = true ↔ specCastlingQueenside b k) := by
  rw [can_castle_queenside_eq_true_iff]
  unfold specCastlingQueenside
  have e1 : intRange 1 k.position.2 = [1, 2, 3] := by
    rw [hc4]; decide
  have e2 : ([k.position.2 - 1, k.position.2 - 2] : List Int) = [3, 2] := by
    rw [hc4]; decide
  rw [e1, e2]
  constructor
  · rintro ⟨⟨rk, hrk, hrt, hrm⟩, hbet, hatt, htr⟩
    rw [hr] at hrk
    have hcolor := rook_color_matches hInv hrk hrt hrm
    refine ⟨hm, ⟨rk, hrk, hcolor, hrt, hrm⟩, ?_, hatt, ?_, ?_⟩
    · intro c hlo hhi
      simp only [List.any_cons, List.any_nil, Bool.or_eq_false_iff] at hbet
      rw [hc4] at hhi
      have hc123 : c = 1 ∨ c = 2 ∨ c = 3 := by omega
      rcases hc123 with rfl | rfl | rfl
      · rw [← Option.not_isSome_iff_eq_none]
        simp [hbet.1]
      · rw [← Option.not_isSome_iff_eq_none]
        simp [hbet.2.1]
      · rw [← Option.not_isSome_iff_eq_none]
        simp [hbet.2.2.1]
    · simp only [List.any_cons, List.any_nil, Bool.or_eq_false_iff] at htr
      rw [hc4]
      show pieceIsSquareAttacked b k.color k.position.1 (4 - 1) = false
      norm_num
      exact htr.1
    · simp only [List.any_cons, List.any_nil, Bool.or_eq_false_iff] at htr
      rw [hc4]
      show pieceIsSquareAttacked b k.color k.position.1 (4 - 2) = false
      norm_num
      exact htr.2.1
  · rintro ⟨_, ⟨rk, hrk, _, hrt, hrm⟩, hbet, hatt, htr1, htr2⟩
    rw [← hr] at hrk
    refine ⟨⟨rk, hrk, hrt, hrm⟩, ?_, hatt, ?_⟩
    · simp only [List.any_cons, List.any_nil, Bool.or_eq_false_iff]
      rw [hc4] at hbet
      refine ⟨?_, ?_, ?_, trivial⟩
      · have := hbet 1 (by omega) (by omega)
        simp [this]
      · have := hbet 2 (by omega) (by omega)
        simp [this]
      · have := hbet 3 (by omega) (by omega)
        simp [this]
    · simp only [List.any_cons, List.any_nil, Bool.or_eq_false_iff]
      rw [hc4] at htr1 htr2
      refine ⟨?_, ?_, trivial⟩
      · have h31 : (4 : Int) - 1 = 3 := by norm_num
        rw [h31] at htr1
        exact htr1
      · have h22 : (4 : Int) - 2 = 2 := by norm_num
        rw [h22] at htr2
        exact htr2

/-- C3: for every board state of the game lifecycle (aliasing plus the
home-square discipline of unmoved kings and rooks), the castling destination
(kingRow, kingCol±2) appears in the king's candidate move list exactly when
the five spec eligibility conditions hold — including that the piece on the
corresponding back-rank corner exists, is of matching color, is kind Rook,
and has not moved; violating any condition merely omits the move. -/
theorem claim_C3_castling_candidates_iff (b : Board) (i j : Fin 8)
    (k : ChessPiece) (hInv : Invariant b) (hk : b.grid i j = some k)
    (hking : k.pieceType = .king) :
    (((k.position.1, k.position.2 + 2) ∈ get_legal_moves b k) ↔
      specCastlingKingside b k) ∧
    (((k.position.1, k.position.2 - 2) ∈ get_legal_moves b k) ↔
      specCastlingQueenside b k) := by
  rw [king_kingside_dest_mem b k hking, king_queenside_dest_mem b k hking]
  by_cases hm : k.hasMoved = true
  · constructor
    · constructor
      · rintro ⟨hm', _⟩
        rw [hm] at hm'
        cases hm'
      · intro hs
        obtain ⟨hm', _⟩ := hs
        rw [hm] at hm'
        cases hm'
    · constructor
      · rintro ⟨hm', _⟩
        rw [hm] at hm'
        cases hm'
      · intro hs
        obtain ⟨hm', _⟩ := hs
        rw [hm] at hm'
        cases hm'
  · have hm' : k.hasMoved = false := Bool.not_eq_true _ ▸ hm
    have hpos := hInv.1.position_eq hk
    cases hkc : k.color with
    | white =>
      obtain ⟨hi7, hj4⟩ := hInv.unmoved_white_king hk hking hkc hm'
      have hp1 : k.position.1 = 7 := by rw [hpos]; simp [hi7]
      have hp2 : k.position.2 = 4 := by rw [hpos]; simp [hj4]
      have hr : k.position.1 = backRank k.color := by rw [hp1, hkc]; rfl
      have hks := castle_kingside_spec_iff b k hInv hm' hr hp2
      have hqs := castle_queenside_spec_iff b k hInv hm' hr hp2
      exact ⟨⟨fun h => hks.mp h.2, fun h => ⟨hm', hks.mpr h⟩⟩,
             ⟨fun h => hqs.mp h.2, fun h => ⟨hm', hqs.mpr h⟩⟩⟩
    | black =>
      obtain ⟨hi0, hj4⟩ := hInv.unmoved_black_king hk hking hkc hm'
      have hp1 : k.position.1 = 0 := by rw [hpos]; simp [hi0]
      have hp2 : k.position.2 = 4 := by rw [hpos]; simp [hj4]
      have hr : k.position.1 = backRank k.color := by rw [hp1, hkc]; rfl
      have hks := castle_kingside_spec_iff b k hInv hm' hr hp2
      have hqs := castle_queenside_spec_iff b k hInv hm' hr hp2
      exact ⟨⟨fun h => hks.mp h.2, fun h => ⟨hm', hks.mpr h⟩⟩,
             ⟨fun h => hqs.mp h.2, fun h => ⟨hm', hqs.mpr h⟩⟩⟩

theorem claim_C3_witness :
    (((kingA.position.1, kingA.position.2 + 2) ∈
        get_legal_moves scenarioA kingA) ↔
      specCastlingKingside scenarioA kingA) ∧
    (((kingA.position.1, kingA.position.2 - 2) ∈
        get_legal_moves scenarioA kingA) ↔
      specCastlingQueenside scenarioA kingA) :=
  claim_C3_castling_candidates_iff scenarioA 7 4 kingA (by decide) (by decide)
    rfl

theorem invariant_def (b : Board) : Invariant b ↔
    (∀ (i j : Fin 8) (p : ChessPiece), b.grid i j = some p →
      (p.position = ((i.val : Int), (j.val : Int)) ∧
        pieceHome p i j = true)) := by
  unfold Invariant WellFormed
  simp only [List.all_eq_true, List.mem_finRange, forall_const]
  constructor
  · rintro ⟨h1, h2⟩ i j p hp
    constructor
    · have := h1 i j
      rw [hp] at this
      simpa using this
    · have := h2 i j
      rw [hp] at this
      simpa using this
  · intro h
    constructor
    · intro i j
      cases hp : b.grid i j with
      | none => simp
      | some p => simpa using (h i j p hp).1
    · intro i j
      cases hp : b.grid i j with
      | none => simp
      | some p => simpa using (h i j p hp).2

theorem invariant_of_grid_eq {a b : Board} (h : a.grid = b.grid) :
    Invariant a ↔ Invariant b := by
  unfold Invariant WellFormed
  rw [h]

theorem pieceHome_of_moved {p : ChessPiece} (h : p.hasMoved = true)
    (i j : Fin 8) : pieceHome p i j = true := by
  unfold pieceHome
  rw [h]
  rfl

theorem invariant_setCell {b : Board} (hInv : Invariant b) {r c : Int}
    {v : Option ChessPiece}
    (hv : ∀ p : ChessPiece, v = some p →
      p.position = (r, c) ∧ p.hasMoved = true) :
    Invariant (b.setCell r c v) := by
  rw [invariant_def] at hInv ⊢
  intro i j p hp
  unfold Board.setCell at hp
  dsimp only at hp
  split at hp
  · rename_i hcond
    obtain ⟨hpos, hmov⟩ := hv p hp
    refine ⟨?_, pieceHome_of_moved hmov i j⟩
    rw [hpos]
    obtain ⟨hb, hi, hj⟩ := hcond
    unfold inBounds at hb
    rw [Prod.mk.injEq]
    omega
  · exact hInv i j p hp

theorem checkmateScan_snd (b : Board) (c : Color) (hwf : WellFormed b) :
    ∀ l : List (Fin 8 × Fin 8), (checkmateScan b c l).2 = b
  | [] => rfl
  | (i, j) :: rest => by
    have ih := checkmateScan_snd b c hwf rest
    have hstep : checkmateScan b c ((i, j) :: rest) =
        (match b.grid i j with
         | some p =>
           if p.color = c then
             let fl := filter_legal_moves_for_check b p (get_legal_moves b p)
             if fl.1 = [] then checkmateScan fl.2 c rest else (false, fl.2)
           else checkmateScan b c rest
         | none => checkmateScan b c rest) := rfl
    rw [hstep]
    cases hcell : b.grid i j with
    | none => exact ih
    | some p =>
      dsimp only
      have hfl := filter_legal_restores b p (hwf.cell_self hcell)
        (get_legal_moves b p)
      by_cases hc : p.color = c
      · rw [if_pos hc, hfl.1]
        by_cases hemp : (filter_legal_moves_for_check b p
            (get_legal_moves b p)).1 = []
        · rw [if_pos hemp]
          exact ih
        · rw [if_neg hemp]
      · rw [if_neg hc]
        exact ih

theorem is_checkmate_snd (b : Board) (c : Color) (hwf : WellFormed b) :
    (is_checkmate b c).2 = b := by
  unfold is_checkmate
  by_cases hk : b.is_king_in_check c = true
  · rw [if_pos hk]
    exact checkmateScan_snd b c hwf allSquares
  · rw [if_neg hk]

theorem wellFormed_of_grid_eq {a b : Board} (h : a.grid = b.grid) :
    WellFormed a ↔ WellFormed b := by
  unfold WellFormed
  rw [h]

theorem invariant_initial : Invariant initialBoard := by decide

theorem initial_grid_standard : initialBoard.grid = specStandardLayout := by
  funext i j
  fin_cases i <;> fin_cases j <;> rfl

theorem invariant_reset (b : Board) (gm : Option Nat) :
    Invariant (reset_game b gm) :=
  (invariant_of_grid_eq
    (by rw [reset_grid_standard, initial_grid_standard])).mpr
    invariant_initial

theorem invariant_select_piece (b : Board) (row col : Int)
    (hInv : Invariant b) : Invariant (select_piece b row col) := by
  unfold select_piece
  by_cases hg : (b.game_over || b.thinking || b.animating) = true
  · rw [if_pos hg]
    exact hInv
  · rw [if_neg hg]
    by_cases hb : inBounds row col
    · rw [if_pos hb]
      cases hcell : b.cell row col with
      | none => exact (invariant_of_grid_eq rfl).mpr hInv
      | some p =>
        dsimp only
        by_cases hc : p.color = b.turn
        · rw [if_pos hc]
          obtain ⟨i, j, hgrid, _, _⟩ := grid_of_cell hcell
          have hfl := filter_legal_restores b p (hInv.1.cell_self hgrid)
            (get_legal_moves b p)
          exact (invariant_of_grid_eq (by rw [hfl.1])).mpr hInv
        · rw [if_neg hc]
          exact (invariant_of_grid_eq rfl).mpr hInv
    · rw [if_neg hb]
      exact hInv

theorem moved_value_ok (rk : ChessPiece) (r c : Int) :
    ∀ p : ChessPiece,
      some { rk with position := (r, c), hasMoved := true } = some p →
        p.position = (r, c) ∧ p.hasMoved = true := by
  intro p hp
  cases hp
  exact ⟨rfl, rfl⟩

theorem none_value_ok {r c : Int} :
    ∀ p : ChessPiece, (none : Option ChessPiece) = some p →
      p.position = (r, c) ∧ p.hasMoved = true := by
  intro p hp
  cases hp

theorem invariant_move_piece_grid (b : Board) (sp : ChessPiece)
    (row col : Int) (hInv : Invariant b) :
    Invariant (move_piece_grid b sp row col) := by
  unfold move_piece_grid
  dsimp only
  have h1 : Invariant { b with move_history := b.move_history ++
      [((sp.position.1, sp.position.2), (row, col))] } :=
    (invariant_of_grid_eq rfl).mpr hInv
  have h3 := invariant_setCell
    (invariant_setCell h1 (moved_value_ok sp row col))
    (none_value_ok (r := sp.position.1) (c := sp.position.2))
  split
  · apply invariant_setCell _ none_value_ok
    split
    · split
      · split
        · exact invariant_setCell
            (invariant_setCell h3 (moved_value_ok _ _ _)) none_value_ok
        · exact h3
      · split
        · exact invariant_setCell
            (invariant_setCell h3 (moved_value_ok _ _ _)) none_value_ok
        · exact h3
    · exact h3
  · split
    · split
      · split
        · exact invariant_setCell
            (invariant_setCell h3 (moved_value_ok _ _ _)) none_value_ok
        · exact h3
      · split
        · exact invariant_setCell
            (invariant_setCell h3 (moved_value_ok _ _ _)) none_value_ok
        · exact h3
    · exact h3

theorem move_piece_book_post_grid (x : Board) (hwf : WellFormed x) :
    (move_piece_book_post x).grid = x.grid := by
  unfold move_piece_book_post
  dsimp only
  rw [is_checkmate_snd x x.turn.other hwf]
  repeat' split
  all_goals rfl

theorem invariant_move_piece (b : Board) (row col : Int)
    (hInv : Invariant b) : Invariant (move_piece b row col).2 := by
  unfold move_piece
  by_cases hg : (b.game_over || b.thinking || b.animating) = true
  · rw [if_pos hg]
    exact hInv
  · rw [if_neg hg]
    cases hsel : b.selected_piece with
    | none => exact hInv
    | some sp =>
      dsimp only
      by_cases hmem : (row, col) ∈ b.legal_moves
      · rw [if_pos hmem]
        have hg5 := invariant_move_piece_grid b sp row col hInv
        have hg7 : Invariant (move_piece_book_pre
            (move_piece_grid b sp row col) sp row col) :=
          (invariant_of_grid_eq rfl).mpr hg5
        unfold move_piece_book
        exact (invariant_of_grid_eq
          (move_piece_book_post_grid _ hg7.1)).mpr hg7
      · rw [if_neg hmem]
        exact hInv

theorem Invariant.of_eq_grid {a : Board} (h : Invariant a) (b : Board)
    (hg : b.grid = a.grid) : Invariant b :=
  (invariant_of_grid_eq hg).mpr h

theorem invariant_make_ai_move (b : Board)
    (aiMove : Option ((Int × Int) × (Int × Int))) (ago : Bool) (ares : String)
    (hInv : Invariant b) : Invariant (make_ai_move b aiMove ago ares) := by
  cases aiMove with
  | none =>
    unfold make_ai_move
    dsimp only
    repeat' split
    all_goals exact hInv.of_eq_grid _ rfl
  | some mvpair =>
    obtain ⟨⟨fromR, fromC⟩, ⟨toR, toC⟩⟩ := mvpair
    unfold make_ai_move
    dsimp only
    cases hcell : b.cell fromR fromC with
    | none =>
      repeat' split
      all_goals
        first
          | exact hInv.of_eq_grid _ rfl
          | exact absurd hcell (by simp_all)
    | some p =>
      have hchain :=
        invariant_setCell
          (invariant_setCell (hInv.of_eq_grid
            { b with move_history := b.move_history ++
              [((fromR, fromC), (toR, toC))] } rfl)
            (moved_value_ok p toR toC))
          (none_value_ok (r := fromR) (c := fromC))
      dsimp only
      split
      · split
        · exact hchain.of_eq_grid _ rfl
        · exact hchain.of_eq_grid _ rfl
      · exact hInv.of_eq_grid _ rfl

end Chessmancer
